import Mathlib

/-!
Verification development for the `reporting-api` repository.

The embedding below translates the two core components:

* the Report Normalizer — the zod `Report` schema (a discriminated union on
  `type` intersected with the common report fields) from `setup-headers.ts`
  (the schema module imported by the endpoint), embedded as an executable
  parser over a model of JavaScript runtime values;
* the Ingestion Endpoint — `createReportingEndpoint`, `handleReport` and
  `filterReport` from the endpoint module, embedded as a pure function from
  a request to the response status, the response headers it sets and the
  ordered list of caller-callback invocations;
* the Header Annotator — `setupReportingHeaders`, `addReporterToHeader` and
  `addQueryParam`, embedded over response header maps.

JavaScript numbers appearing in reports are modelled as `Int` (all values the
claims exercise are integers), and response header values are modelled as
lists of strings (a single-valued header is a one-element list, an absent
header the empty list).
-/

/-- Model of a JavaScript runtime value as produced by JSON parsing and by
object-literal construction in the source: `undef` stands for JavaScript
`undefined` (the result of reading an absent property). -/
inductive JVal where
  | undef
  | null
  | bool (b : Bool)
  | num (n : Int)
  | str (s : String)
  | arr (elems : List JVal)
  | obj (fields : List (String × JVal))

/-- Property lookup on an object field list: first matching key wins
(parsed JSON objects carry no duplicate keys), absent key gives `undef`. -/
def lookupField (kvs : List (String × JVal)) (k : String) : JVal :=
  match kvs.find? (fun p => p.1 = k) with
  | some p => p.2
  | none => JVal.undef

/-- JavaScript property access `v[k]`: object lookup; any non-object value
(including arrays, whose properties the source never reads by name) gives
`undefined`. -/
def jvalGet (v : JVal) (k : String) : JVal :=
  match v with
  | JVal.obj kvs => lookupField kvs k
  | _ => JVal.undef

/-- JavaScript truthiness of the modelled values: `undefined`, `null`,
`false`, `0` and the empty string are falsy; everything else is truthy. -/
def jsTruthy : JVal → Bool
  | JVal.undef => false
  | JVal.null => false
  | JVal.bool b => b
  | JVal.num n => n != 0
  | JVal.str s => s != ""
  | JVal.arr _ => true
  | JVal.obj _ => true

/-- JavaScript `a || b`. -/
def jsOr (a b : JVal) : JVal :=
  if jsTruthy a then a else b

/-- JavaScript `typeof v === 'object'`, which is satisfied by objects,
arrays and `null`. -/
def jsTypeofObject : JVal → Bool
  | JVal.obj _ => true
  | JVal.arr _ => true
  | JVal.null => true
  | _ => false

/-- Embedding of an optional string (absent request metadata) as a value. -/
def jOptStr : Option String → JVal
  | none => JVal.undef
  | some s => JVal.str s

/-! ### The zod object-schema model

The schemas in the source are zod objects whose fields are strings, numbers
or string enums, each possibly `.optional()`, with either the default
`strip` behaviour for unknown keys or `.passthrough()`. -/

/-- Field types used by the report schemas: `z.string()`, `z.number()`,
`z.enum([...])`. -/
inductive FieldType where
  | str
  | num
  | enum (vals : List String)

/-- One field of a zod object schema. -/
structure FieldSpec where
  name : String
  type : FieldType
  optional : Bool

/-- A zod object schema: its fields in declaration order, and whether
unknown keys pass through (`.passthrough()`) or are stripped (default). -/
structure ObjSchema where
  fields : List FieldSpec
  passthrough : Bool

/-- Parse a single present (non-`undefined`) value against a field type,
mirroring zod: strings for `z.string()`, numbers for `z.number()`, and a
string drawn from the variants for `z.enum`. -/
def parseFieldVal : FieldType → JVal → Option JVal
  | FieldType.str, JVal.str s => some (JVal.str s)
  | FieldType.num, JVal.num n => some (JVal.num n)
  | FieldType.enum vs, JVal.str s => if s ∈ vs then some (JVal.str s) else none
  | _, _ => none

/-- Parse one field given the value found at its key. `some (some out)`
includes the key in the output, `some none` omits it (optional field whose
key is absent), `none` is a validation failure. -/
def parseFieldSpec (f : FieldSpec) (v : JVal) : Option (Option JVal) :=
  match v with
  | JVal.undef => if f.optional then some none else none
  | v => (parseFieldVal f.type v).map some

/-- Parse the declared fields of a schema against an object's field list,
producing the declared part of the output object in schema order. -/
def parseFields : List FieldSpec → List (String × JVal) → Option (List (String × JVal))
  | [], _ => some []
  | f :: fs, kvs =>
    match parseFieldSpec f (lookupField kvs f.name), parseFields fs kvs with
    | some none, some rest => some rest
    | some (some out), some rest => some ((f.name, out) :: rest)
    | _, _ => none

/-- Input keys outside the declared field names, kept in input order; these
are what `.passthrough()` copies into the output. -/
def extraFields (names : List String) (kvs : List (String × JVal)) : List (String × JVal) :=
  kvs.filter (fun p => decide (p.1 ∉ names))

/-- Parse a value against a zod object schema. Non-objects (including
arrays and `null`) are rejected; declared fields are validated and emitted
in schema order; unknown keys are appended when the schema is
`.passthrough()` and dropped otherwise. -/
def parseObjSchema (sch : ObjSchema) (v : JVal) : Option JVal :=
  match v with
  | JVal.obj kvs =>
    (parseFields sch.fields kvs).map (fun shape =>
      JVal.obj (shape ++
        (if sch.passthrough then extraFields (sch.fields.map (·.name)) kvs else [])))
  | _ => none

/-! ### The report body variant schemas (from the schema module) -/

/-- Schema `ContentSecurityPolicyReport` (passthrough). -/
def cspBodySchema : ObjSchema :=
  ⟨[⟨"blockedURL", FieldType.str, false⟩,
    ⟨"columnNumber", FieldType.num, true⟩,
    ⟨"disposition", FieldType.enum ["enforce", "report"], false⟩,
    ⟨"documentURL", FieldType.str, false⟩,
    ⟨"effectiveDirective", FieldType.str, false⟩,
    ⟨"lineNumber", FieldType.num, true⟩,
    ⟨"originalPolicy", FieldType.str, false⟩,
    ⟨"referrer", FieldType.str, false⟩,
    ⟨"sample", FieldType.str, true⟩,
    ⟨"sourceFile", FieldType.str, true⟩,
    ⟨"statusCode", FieldType.num, true⟩], true⟩

/-- Schema `CrossOriginOpenerPolicyReport` (passthrough). -/
def coopBodySchema : ObjSchema :=
  ⟨[⟨"disposition", FieldType.enum ["reporting", "enforce"], false⟩,
    ⟨"effectivePolicy", FieldType.enum
      ["unsafe-none", "same-origin", "same-origin-allow-popups",
       "same-origin-plus-coep"], false⟩,
    ⟨"type", FieldType.enum
      ["navigate-to-document", "navigate-from-document",
       "navigation-from-response", "access-to-coop-page-from-opener",
       "access-from-coop-page-to-opener", "access-from-coop-page-to-other",
       "access-from-coop-page-to-openee", "access-to-coop-page-from-opener",
       "access-to-coop-page-from-openee", "access-to-coop-page-from-other"],
      false⟩,
    ⟨"columnNumber", FieldType.num, true⟩,
    ⟨"initialPopupURL", FieldType.str, true⟩,
    ⟨"lineNumber", FieldType.num, true⟩,
    ⟨"openeeURL", FieldType.str, true⟩,
    ⟨"property", FieldType.str, false⟩,
    ⟨"sourceFile", FieldType.str, true⟩], true⟩

/-- Schema `CrossOriginEmbedderPolicyReport` (passthrough). -/
def coepBodySchema : ObjSchema :=
  ⟨[⟨"disposition", FieldType.enum ["reporting", "enforce"], false⟩,
    ⟨"blockedURL", FieldType.str, true⟩,
    ⟨"type", FieldType.str, false⟩,
    ⟨"destination", FieldType.str, true⟩], true⟩

/-- Schema `NetworkErrorLogging` (passthrough). -/
def nelBodySchema : ObjSchema :=
  ⟨[⟨"elapsed_time", FieldType.num, false⟩,
    ⟨"method", FieldType.str, false⟩,
    ⟨"phase", FieldType.str, false⟩,
    ⟨"protocol", FieldType.str, false⟩,
    ⟨"referrer", FieldType.str, false⟩,
    ⟨"sampling_fraction", FieldType.num, false⟩,
    ⟨"server_ip", FieldType.str, false⟩,
    ⟨"status_code", FieldType.num, false⟩,
    ⟨"type", FieldType.str, false⟩], true⟩

/-- Schema `PermissionsPolicyViolation` (passthrough). -/
def permissionsBodySchema : ObjSchema :=
  ⟨[⟨"message", FieldType.str, false⟩,
    ⟨"disposition", FieldType.enum ["report", "enforce"], false⟩,
    ⟨"policyId", FieldType.str, false⟩,
    ⟨"columnNumber", FieldType.num, true⟩,
    ⟨"lineNumber", FieldType.num, true⟩,
    ⟨"sourceFile", FieldType.str, false⟩], true⟩

/-- Schema `InterventionReport` (no passthrough: unknown keys stripped). -/
def interventionBodySchema : ObjSchema :=
  ⟨[⟨"id", FieldType.str, false⟩,
    ⟨"message", FieldType.str, false⟩,
    ⟨"columnNumber", FieldType.num, true⟩,
    ⟨"lineNumber", FieldType.num, true⟩,
    ⟨"sourceFile", FieldType.str, true⟩], false⟩

/-- Schema `CrashReport` (no passthrough: unknown keys stripped). -/
def crashBodySchema : ObjSchema :=
  ⟨[⟨"reason", FieldType.str, true⟩], false⟩

/-- Schema `DeprecationReport` (no passthrough: unknown keys stripped). -/
def deprecationBodySchema : ObjSchema :=
  ⟨[⟨"id", FieldType.str, false⟩,
    ⟨"message", FieldType.str, false⟩,
    ⟨"columnNumber", FieldType.num, true⟩,
    ⟨"lineNumber", FieldType.num, true⟩,
    ⟨"sourceFile", FieldType.str, true⟩], false⟩

/-- The eight discriminator values of the `Report` discriminated union, in
declaration order. -/
def reportTypes : List String :=
  ["csp-violation", "coop", "coep", "deprecation", "crash", "intervention",
   "network-error", "permissions-policy-violation"]

/-- Body schema selected by the `type` discriminator; `none` for a type
outside the union. -/
def variantSchema (t : String) : Option ObjSchema :=
  if t = "csp-violation" then some cspBodySchema
  else if t = "coop" then some coopBodySchema
  else if t = "coep" then some coepBodySchema
  else if t = "deprecation" then some deprecationBodySchema
  else if t = "crash" then some crashBodySchema
  else if t = "intervention" then some interventionBodySchema
  else if t = "network-error" then some nelBodySchema
  else if t = "permissions-policy-violation" then some permissionsBodySchema
  else none

/-- The normalized report handed to the caller callback: the merge of the
discriminated-union side (`type`, validated `body`) and the common-fields
side of the zod intersection. -/
structure Report where
  type : String
  body : JVal
  url : String
  age : Int
  user_agent : String
  version : Option String
  report_format : String

/-- Parse of the discriminated-union side `z.discriminatedUnion('type', ...)`:
the input must be an object whose `type` is one of the eight literals, and
whose `body` validates against that variant's schema. -/
def parseUnionSide (v : JVal) : Option (String × JVal) :=
  match v with
  | JVal.obj kvs =>
    match lookupField kvs "type" with
    | JVal.str t =>
      match variantSchema t with
      | some sch => (parseObjSchema sch (lookupField kvs "body")).map (fun b => (t, b))
      | none => none
    | _ => none
  | _ => none

/-- The common-fields side of the intersection: `url`, `age`, `user_agent`,
optional `version` and the `report_format` enum. -/
structure CommonFields where
  url : String
  age : Int
  user_agent : String
  version : Option String
  report_format : String

/-- Parse of the common-fields side `z.object(\x7b url, age, user_agent,
version?, report_format \x7d)`. -/
def parseCommonSide (v : JVal) : Option CommonFields :=
  match v with
  | JVal.obj kvs =>
    match lookupField kvs "url", lookupField kvs "age",
          lookupField kvs "user_agent", lookupField kvs "report_format" with
    | JVal.str url, JVal.num age, JVal.str ua, JVal.str fmt =>
      if fmt ∈ ["report-uri", "report-to", "report-to-safari"] then
        match lookupField kvs "version" with
        | JVal.undef => some ⟨url, age, ua, none, fmt⟩
        | JVal.str ver => some ⟨url, age, ua, some ver, fmt⟩
        | _ => none
      else none
    | _, _, _, _ => none
  | _ => none

/-- Embedding of `Report.safeParse`: both sides of the zod intersection
parse the same input, and their (disjoint) outputs are merged. `none` is a
validation failure. -/
def reportSafeParse (v : JVal) : Option Report :=
  match parseUnionSide v, parseCommonSide v with
  | some (t, b), some c => some ⟨t, b, c.url, c.age, c.user_agent, c.version, c.report_format⟩
  | _, _ => none

/-! ### The Ingestion Endpoint -/

/-- One pattern of the `allowedOrigins` configuration: an exact origin
string or a regular expression, the latter modelled by its match predicate. -/
inductive OriginPattern where
  | str (s : String)
  | regex (test : String → Bool)

/-- The `allowedOrigins` value: a single pattern or a list of patterns. -/
inductive AllowedOrigins where
  | single (p : OriginPattern)
  | list (ps : List OriginPattern)

/-- Match of one origin pattern: regular expressions with `test`, strings
with strict equality. -/
def originPatternMatches (origin : String) : OriginPattern → Bool
  | OriginPattern.str s => s = origin
  | OriginPattern.regex t => t origin

/-- Embedding of `isOriginAllowed`: arrays are checked with `some`, single
patterns directly. -/
def isOriginAllowed (origin : String) : AllowedOrigins → Bool
  | AllowedOrigins.single p => originPatternMatches origin p
  | AllowedOrigins.list ps => ps.any (originPatternMatches origin)

/-- The endpoint configuration (`ReportingEndpointConfig`). The two caller
callbacks are modelled by recording their invocations as events;
`hasOnValidationError` records whether the optional `onValidationError`
callback was supplied. -/
structure ReportingEndpointConfig where
  hasOnValidationError : Bool
  ignoreBrowserExtensions : Bool
  maxAge : Option Int
  allowedOrigins : Option AllowedOrigins

/-- JavaScript truthiness of the `maxAge` option: absent or `0` is falsy. -/
def maxAgeTruthy : Option Int → Bool
  | none => false
  | some m => m != 0

/-- JavaScript `String.prototype.startsWith`, as a prefix test on the
character sequences. -/
def jsStartsWith (s pre : String) : Bool :=
  pre.data.isPrefixOf s.data

/-- Test applied by `filterReport` to `report.body.sourceFile`: the value
is a string starting with one of the three browser-extension prefixes. -/
def extensionSourceFile : JVal → Bool
  | JVal.str sf =>
    jsStartsWith sf "chrome-extension" || jsStartsWith sf "moz-extension" ||
      jsStartsWith sf "safari-web-extension"
  | _ => false

/-- Embedding of `filterReport`: `false` drops the report. When
`ignoreBrowserExtensions` is set, a report whose body has a string
`sourceFile` starting with one of the three extension prefixes is dropped
(the source checks `'sourceFile' in report.body` and its type, not the
report's `type` tag); then a truthy `maxAge` (seconds) drops reports whose
`age` (milliseconds) strictly exceeds `maxAge * 1000`. -/
def filterReport (report : Report) (cfg : ReportingEndpointConfig) : Bool :=
  if cfg.ignoreBrowserExtensions ∧
      extensionSourceFile (jvalGet report.body "sourceFile") then
    false
  else if maxAgeTruthy cfg.maxAge ∧ report.age > cfg.maxAge.getD 0 * 1000 then
    false
  else
    true

/-- A recorded caller-callback invocation: `onReport` with the normalized
report, or `onValidationError` with the raw payload that failed. -/
inductive Event where
  | report (r : Report)
  | validationError (raw : JVal)

/-- Embedding of `handleReport`: a successful parse is filtered and, when
kept, delivered to `onReport`; a failed parse invokes `onValidationError`
when the caller supplied it. -/
def handleReport (result : Option Report) (raw : JVal)
    (cfg : ReportingEndpointConfig) : Option Event :=
  match result with
  | some r => if filterReport r cfg then some (Event.report r) else none
  | none => if cfg.hasOnValidationError then some (Event.validationError raw) else none

/-- The request metadata the endpoint consumes: method, exact content type,
`Origin` and `User-Agent` headers, the `version` and `disposition` query
parameters, and the parsed body. -/
structure Request where
  method : String
  contentType : Option String
  origin : Option String
  userAgent : Option String
  queryVersion : Option String
  queryDisposition : Option String
  body : JVal

/-- The observable outcome of one request: the response status, the response
headers the handler set (in order), and the callback invocations (in order). -/
structure HandlerResult where
  status : Nat
  headers : List (String × String)
  events : List Event

/-- The legacy CSP body mapping: hyphenated CSP Level 2 keys mapped to the
canonical camel-case names, with `effective-directive` preferred over the
deprecated `violated-directive` and the `disposition` query parameter as
fallback when the browser omits `disposition`. -/
def cspLegacyBody (body : JVal) (queryDisposition : Option String) : JVal :=
  JVal.obj
    [("blockedURL", jvalGet body "blocked-uri"),
     ("columnNumber", jvalGet body "column-number"),
     ("disposition", jsOr (jvalGet body "disposition") (jOptStr queryDisposition)),
     ("documentURL", jvalGet body "document-uri"),
     ("effectiveDirective",
       jsOr (jvalGet body "effective-directive") (jvalGet body "violated-directive")),
     ("lineNumber", jvalGet body "line-number"),
     ("originalPolicy", jvalGet body "original-policy"),
     ("referrer", jvalGet body "referrer"),
     ("sample", jvalGet body "script-sample"),
     ("sourceFile", jvalGet body "source-file"),
     ("statusCode", jvalGet body "status-code")]

/-- The raw candidate handed to `Report.safeParse` in the
`application/csp-report` branch: `age` 0 and `report_format` `report-uri`. -/
def cspCandidate (body : JVal) (userAgent : Option String)
    (version queryDisposition : Option String) : JVal :=
  JVal.obj
    [("body", cspLegacyBody body queryDisposition),
     ("type", JVal.str "csp-violation"),
     ("url", jvalGet body "document-uri"),
     ("age", JVal.num 0),
     ("user_agent", JVal.str (userAgent.getD "")),
     ("report_format", JVal.str "report-uri"),
     ("version", jOptStr version)]

/-- The candidate built in the Safari single-object branch: the request body
carries `body`, `type` and `url` directly, `age` is 0 and the format tag is
`report-to-safari`. -/
def safariCandidate (reqBody : JVal) (userAgent : Option String)
    (version : Option String) : JVal :=
  JVal.obj
    [("body", jvalGet reqBody "body"),
     ("type", jvalGet reqBody "type"),
     ("url", jvalGet reqBody "url"),
     ("age", JVal.num 0),
     ("user_agent", JVal.str (userAgent.getD "")),
     ("report_format", JVal.str "report-to-safari"),
     ("version", jOptStr version)]

/-- The candidate built for one element of a buffered
`application/reports+json` array: each element carries its own `body`,
`type`, `age`, `url` and `user_agent`, with format tag `report-to`. -/
def bufferedCandidate (raw : JVal) (version : Option String) : JVal :=
  JVal.obj
    [("body", jvalGet raw "body"),
     ("type", jvalGet raw "type"),
     ("age", jvalGet raw "age"),
     ("url", jvalGet raw "url"),
     ("user_agent", jvalGet raw "user_agent"),
     ("report_format", JVal.str "report-to"),
     ("version", jOptStr version)]

/-- The CORS headers set before dispatch when `allowedOrigins` is
configured: `*` verbatim for the wildcard configuration, otherwise the
echoed `Origin` plus `Vary: Origin` when the (truthy) origin matches. -/
def corsHeaders (cfg : ReportingEndpointConfig) (req : Request) :
    List (String × String) :=
  match cfg.allowedOrigins with
  | none => []
  | some ao =>
    match ao with
    | AllowedOrigins.single (OriginPattern.str "*") =>
      [("Access-Control-Allow-Origin", "*")]
    | _ =>
      match req.origin with
      | some o =>
        if o ≠ "" ∧ isOriginAllowed o ao then
          [("Access-Control-Allow-Origin", o), ("Vary", "Origin")]
        else []
      | none => []

/-- Embedding of the request handler returned by `createReportingEndpoint`:
method check, CORS and preflight handling, content-type dispatch into the
legacy CSP branch, the Safari single-object branch and the buffered array
branch, each candidate normalized by `Report.safeParse` and handed to
`handleReport`. -/
def createReportingEndpoint (cfg : ReportingEndpointConfig) (req : Request) :
    HandlerResult :=
  if req.method ≠ "POST" ∧ req.method ≠ "OPTIONS" then
    ⟨405, [("Allow", "POST, OPTIONS")], []⟩
  else
    let cors := corsHeaders cfg req
    if cfg.allowedOrigins.isSome ∧ req.method = "OPTIONS" then
      ⟨200, cors ++
        [("Access-Control-Allow-Headers", "Content-Type"),
         ("Access-Control-Allow-Methods", "POST"),
         ("Access-Control-Max-Age", "7200")], []⟩
    else
      let version := req.queryVersion
      if req.contentType = some "application/csp-report" then
        let body := jvalGet req.body "csp-report"
        if ¬ jsTruthy body then
          ⟨400, cors, []⟩
        else
          let result := reportSafeParse
            (cspCandidate body req.userAgent version req.queryDisposition)
          ⟨200, cors, (handleReport result req.body cfg).toList⟩
      else if req.contentType ≠ some "application/reports+json" then
        ⟨400, cors, []⟩
      else if jsTypeofObject (jvalGet req.body "body") then
        let result := reportSafeParse
          (safariCandidate req.body req.userAgent version)
        ⟨200, cors, (handleReport result req.body cfg).toList⟩
      else
        match req.body with
        | JVal.arr elems =>
          ⟨200, cors,
            elems.foldl (fun acc raw =>
              acc ++ (handleReport (reportSafeParse (bufferedCandidate raw version))
                raw cfg).toList) []⟩
        | _ => ⟨200, cors, []⟩

/-! ### The Header Annotator -/

/-- JavaScript `String.prototype.includes`: substring containment. -/
def jsIncludes (s pat : String) : Bool :=
  go s.data pat.data
where
  go : List Char → List Char → Bool
  | l, p => p.isPrefixOf l || (match l with
    | [] => false
    | _ :: t => go t p)

/-- Characters `encodeURIComponent` leaves unescaped: alphanumerics and
`- _ . ! ~ * ' ( )`. -/
def isUnescapedURIChar (c : Char) : Bool :=
  c.isAlpha || c.isDigit ||
    c ∈ ['-', '_', '.', '!', '~', '*', Char.ofNat 39, '(', ')']

/-- UTF-8 code units of a character, as numbers. -/
def utf8Units (c : Char) : List Nat :=
  let n := c.toNat
  if n < 128 then [n]
  else if n < 2048 then [192 + n / 64, 128 + n % 64]
  else if n < 65536 then [224 + n / 4096, 128 + (n / 64) % 64, 128 + n % 64]
  else [240 + n / 262144, 128 + (n / 4096) % 64, 128 + (n / 64) % 64, 128 + n % 64]

/-- Uppercase hexadecimal digit. -/
def hexDigit (n : Nat) : String :=
  if n < 10 then String.singleton (Char.ofNat (48 + n))
  else String.singleton (Char.ofNat (55 + n))

/-- Percent-escape of one UTF-8 code unit. -/
def percentByte (n : Nat) : String :=
  "%" ++ hexDigit (n / 16 % 16) ++ hexDigit (n % 16)

/-- Embedding of `encodeURIComponent`. -/
def encodeURIComponent (s : String) : String :=
  s.data.foldl (fun acc c =>
    acc ++ (if isUnescapedURIChar c then String.singleton c
            else String.join ((utf8Units c).map percentByte))) ""

/-- Embedding of `addQueryParam`: append `?k=v` or `&k=v` depending on
whether the URL already has a query string, with the value URI-encoded. -/
def addQueryParam (url k v : String) : String :=
  let sep := if jsIncludes url "?" then "&" else "?"
  url ++ sep ++ k ++ "=" ++ encodeURIComponent v

/-- The eight monitored response headers supporting Reporting API v1, in
iteration order. -/
def monitoredHeaders : List String :=
  ["Content-Security-Policy",
   "Content-Security-Policy-Report-Only",
   "Permissions-Policy",
   "Permissions-Policy-Report-Only",
   "Cross-Origin-Opener-Policy",
   "Cross-Origin-Opener-Policy-Report-Only",
   "Cross-Origin-Embedder-Policy",
   "Cross-Origin-Embedder-Policy-Report-Only"]

/-- Guard used by `addReporterToHeader`: a header value that already
contains `report-to` or `report-uri ` (note the trailing space) is left
alone. -/
def alreadyReported (value : String) : Bool :=
  jsIncludes value "report-to" || jsIncludes value "report-uri "

/-- Embedding of `addReporterToHeader`: `none` when the value already has a
reporter or the header is unknown, otherwise the value with the per-header
directive appended — CSP gets `;report-uri <url>?src=report-uri;report-to
<group>`, Permissions-Policy gets `;report-to=<group>`, the COOP and COEP
headers get `;report-to="<group>"`. -/
def addReporterToHeader (header value reportingGroup reportingUri : String) :
    Option String :=
  if alreadyReported value then
    none
  else if header = "Content-Security-Policy" ∨
      header = "Content-Security-Policy-Report-Only" then
    some (value ++ ";report-uri " ++ addQueryParam reportingUri "src" "report-uri"
      ++ ";report-to " ++ reportingGroup)
  else if header = "Permissions-Policy" ∨
      header = "Permissions-Policy-Report-Only" then
    some (value ++ ";report-to=" ++ reportingGroup)
  else if header = "Cross-Origin-Embedder-Policy" ∨
      header = "Cross-Origin-Embedder-Policy-Report-Only" ∨
      header = "Cross-Origin-Opener-Policy" ∨
      header = "Cross-Origin-Opener-Policy-Report-Only" then
    some (value ++ ";report-to=\"" ++ reportingGroup ++ "\"")
  else
    none

/-- Response headers, modelled as a map from header name to its ordered
value list; the empty list stands for an absent header. -/
def HeaderMap : Type := String → List String

/-- Overwrite of one header's value list (`res.setHeader`). -/
def setHeader (m : HeaderMap) (k : String) (vs : List String) : HeaderMap :=
  fun k2 => if k2 = k then vs else m k2

/-- Append of one value to a header (`res.append`). -/
def appendHeader (m : HeaderMap) (k : String) (v : String) : HeaderMap :=
  setHeader m k (m k ++ [v])

/-- The Header Annotator configuration (`ReportingHeadersConfig`); the
network-error-logging option only adds the legacy `Report-To` and `NEL`
headers and is not exercised by these theorems, so it is left out. -/
structure ReportingHeadersConfig where
  reportingGroup : Option String
  enableDefaultReporters : Bool
  version : Option String

/-- Resolution of the reporting group name: `default` when
`enableDefaultReporters` is set, else the configured group when truthy,
else `reporter`. -/
def resolveGroup (cfg : ReportingHeadersConfig) : String :=
  if cfg.enableDefaultReporters then "default"
  else
    match cfg.reportingGroup with
    | some g => if g = "" then "reporter" else g
    | none => "reporter"

/-- Resolution of the reporting URL: the `version` option, when set, is
appended as a query parameter. -/
def resolveUrl (reportingUrl : String) (cfg : ReportingHeadersConfig) : String :=
  match cfg.version with
  | some v => addQueryParam reportingUrl "version" v
  | none => reportingUrl

/-- One header value after the annotator's inner loop: the mutation
`values[i] = newHeader` happens only when `addReporterToHeader` returned a
truthy (non-null, non-empty) string. -/
def applyReporter (header value group url : String) : String :=
  match addReporterToHeader header value group url with
  | some nv => if nv = "" then value else nv
  | none => value

/-- One iteration of the annotator's loop over the monitored header names:
an absent header is skipped, otherwise each value is rewritten through
`addReporterToHeader` and the whole list is written back, recording in the
flag whether any value was modified. -/
def stepHeader (group url : String) (acc : HeaderMap × Bool) (headerKey : String) :
    HeaderMap × Bool :=
  let vals := acc.1 headerKey
  if vals = [] then acc
  else
    let newVals := vals.map (fun v => applyReporter headerKey v group url)
    let modified := vals.any (fun v =>
      match addReporterToHeader headerKey v group url with
      | some nv => nv ≠ ""
      | none => false)
    (setHeader acc.1 headerKey newVals, acc.2 || modified)

/-- Embedding of the request-scoped operation returned by
`setupReportingHeaders`: nothing happens when `Reporting-Endpoints` is
already present; otherwise every monitored header's values are annotated
and, when any value was modified, `Reporting-Endpoints: <group>="<url>"` is
appended. -/
def setupReportingHeaders (reportingUrl : String) (cfg : ReportingHeadersConfig)
    (res : HeaderMap) : HeaderMap :=
  let url := resolveUrl reportingUrl cfg
  if res "Reporting-Endpoints" ≠ [] then res
  else
    let group := resolveGroup cfg
    let out := monitoredHeaders.foldl (stepHeader group url) (res, false)
    if out.2 then
      appendHeader out.1 "Reporting-Endpoints" (group ++ "=\"" ++ url ++ "\"")
    else out.1

/-! ### Derived definitions used by the theorems -/

/-- The directive a monitored header value receives, by per-header syntax:
CSP headers get `;report-uri <url>?src=report-uri;report-to <group>`,
Permissions-Policy headers get `;report-to=<group>`, the COOP and COEP
headers get `;report-to="<group>"`. -/
def reporterSuffix (header group url : String) : String :=
  if header = "Content-Security-Policy" ∨
      header = "Content-Security-Policy-Report-Only" then
    ";report-uri " ++ addQueryParam url "src" "report-uri" ++ ";report-to " ++ group
  else if header = "Permissions-Policy" ∨
      header = "Permissions-Policy-Report-Only" then
    ";report-to=" ++ group
  else
    ";report-to=\"" ++ group ++ "\""

/-- The five report types whose body schema is `.passthrough()`. -/
def passthroughTypes : List String :=
  ["csp-violation", "coop", "coep", "network-error", "permissions-policy-violation"]

/-- The three report types whose body schema strips unknown keys
(no `.passthrough()` in the source). -/
def strippedTypes : List String :=
  ["deprecation", "crash", "intervention"]

/-- Declared field names of the body schema selected by a type tag. -/
def schemaFieldNames (t : String) : List String :=
  match variantSchema t with
  | some sch => sch.fields.map (·.name)
  | none => []

/-! ### Concrete inputs used by witnesses and counterexamples -/

/-- A valid crash report in the buffered wire shape. -/
def c1Raw : JVal :=
  JVal.obj
    [("type", JVal.str "crash"),
     ("body", JVal.obj [("reason", JVal.str "oom")]),
     ("url", JVal.str "https://x"),
     ("age", JVal.num 0),
     ("user_agent", JVal.str "UA"),
     ("report_format", JVal.str "report-to")]

/-- The normalized report `c1Raw` parses to. -/
def c1Report : Report :=
  ⟨"crash", JVal.obj [("reason", JVal.str "oom")], "https://x", 0, "UA", none, "report-to"⟩

/-- A raw report whose `type` is outside the enumeration. -/
def c1BadRaw : JVal :=
  JVal.obj
    [("type", JVal.str "future-report-type"),
     ("body", JVal.obj []),
     ("url", JVal.str "https://x"),
     ("age", JVal.num 0),
     ("user_agent", JVal.str "UA"),
     ("report_format", JVal.str "report-to")]

/-- A response carrying one already-annotated CSP value and one plain one. -/
def c2Res : HeaderMap := fun k =>
  if k = "Content-Security-Policy" then
    ["script-src 'self';report-uri /endpoint?src=report-uri;report-to reporter",
     "img-src 'self'"]
  else []

/-- Default annotator configuration. -/
def c2Cfg : ReportingHeadersConfig := ⟨none, false, none⟩

/-- A valid deprecation report whose body carries an unknown extra field. -/
def c3Raw : JVal :=
  JVal.obj
    [("type", JVal.str "deprecation"),
     ("age", JVal.num 0),
     ("url", JVal.str "https://x"),
     ("user_agent", JVal.str "UA"),
     ("report_format", JVal.str "report-to"),
     ("body", JVal.obj
       [("id", JVal.str "WebSQL"),
        ("message", JVal.str "WebSQL is deprecated"),
        ("extra", JVal.str "dropped")])]

/-- The normalized report `c3Raw` parses to: the extra body field is gone. -/
def c3Report : Report :=
  ⟨"deprecation",
   JVal.obj [("id", JVal.str "WebSQL"), ("message", JVal.str "WebSQL is deprecated")],
   "https://x", 0, "UA", none, "report-to"⟩

/-- A valid deprecation body as an object field list. -/
def c3Kvs : List (String × JVal) :=
  [("id", JVal.str "WebSQL"), ("message", JVal.str "WebSQL is deprecated")]

/-- Endpoint configuration with an `onValidationError` callback. -/
def c4Config : ReportingEndpointConfig := ⟨true, false, none, none⟩

/-- A buffered array element with an unrecognized type. -/
def c4Bad : JVal :=
  JVal.obj [("type", JVal.str "future-report-type"), ("age", JVal.num 1),
    ("url", JVal.str "https://x"), ("user_agent", JVal.str "UA"),
    ("body", JVal.obj [])]

/-- A valid buffered CSP-violation array element. -/
def c4Good : JVal :=
  JVal.obj [("type", JVal.str "csp-violation"), ("age", JVal.num 3),
    ("url", JVal.str "https://x"), ("user_agent", JVal.str "UA2"),
    ("body", JVal.obj
      [("blockedURL", JVal.str "https://evil"),
       ("disposition", JVal.str "report"),
       ("documentURL", JVal.str "https://x"),
       ("effectiveDirective", JVal.str "img-src"),
       ("originalPolicy", JVal.str "img-src 'self'"),
       ("referrer", JVal.str "")])]

/-- The normalized report `c4Good` parses to. -/
def c4GoodReport : Report :=
  ⟨"csp-violation",
   JVal.obj
     [("blockedURL", JVal.str "https://evil"),
      ("disposition", JVal.str "report"),
      ("documentURL", JVal.str "https://x"),
      ("effectiveDirective", JVal.str "img-src"),
      ("originalPolicy", JVal.str "img-src 'self'"),
      ("referrer", JVal.str "")],
   "https://x", 3, "UA2", none, "report-to"⟩

/-- A buffered-format POST whose array holds a malformed element followed by
a valid one. -/
def c4Request : Request :=
  ⟨"POST", some "application/reports+json", none, none, none, none,
   JVal.arr [c4Bad, c4Good]⟩

/-- A valid permissions-policy-violation report whose body `sourceFile` is a
browser-extension URL. -/
def c5Raw : JVal :=
  JVal.obj
    [("type", JVal.str "permissions-policy-violation"),
     ("body", JVal.obj
       [("message", JVal.str "Permissions policy violation: camera is not allowed"),
        ("disposition", JVal.str "enforce"),
        ("policyId", JVal.str "camera"),
        ("sourceFile", JVal.str "chrome-extension://abcdefgh/content.js")]),
     ("url", JVal.str "https://site.example/page"),
     ("age", JVal.num 5),
     ("user_agent", JVal.str "Mozilla/5.0"),
     ("report_format", JVal.str "report-to")]

/-- Endpoint configuration with `ignoreBrowserExtensions` enabled. -/
def c5Config : ReportingEndpointConfig := ⟨false, true, none, none⟩

/-- Endpoint configuration with `maxAge` of 30 seconds. -/
def c6Config : ReportingEndpointConfig := ⟨false, false, some 30, none⟩

/-- A report exactly at the 30-second age boundary. -/
def c6ReportKept : Report :=
  ⟨"crash", JVal.obj [], "https://x", 30000, "", none, "report-to"⟩

/-- A report one millisecond past the 30-second age boundary. -/
def c6ReportDropped : Report :=
  ⟨"crash", JVal.obj [], "https://x", 30001, "", none, "report-to"⟩

/-- Endpoint configuration with an `onValidationError` callback. -/
def c8Config : ReportingEndpointConfig := ⟨true, false, none, none⟩

/-- A legacy CSP Level 2 POST with the nested `csp-report` object. -/
def c8ReqOk : Request :=
  ⟨"POST", some "application/csp-report", none, none, none, none,
   JVal.obj [("csp-report", JVal.obj
     [("document-uri", JVal.str "https://x"),
      ("blocked-uri", JVal.str "https://y")])]⟩

/-- A legacy CSP POST whose body lacks the nested `csp-report` object. -/
def c8ReqNoBody : Request :=
  ⟨"POST", some "application/csp-report", none, none, none, none, JVal.obj []⟩

/-- A GET request. -/
def c9Request : Request := ⟨"GET", none, none, none, none, none, JVal.null⟩

/-- A minimal endpoint configuration. -/
def c9Config : ReportingEndpointConfig := ⟨false, false, none, none⟩

/-- Endpoint configuration with `maxAge` of 0 seconds. -/
def c10Config : ReportingEndpointConfig := ⟨false, false, some 0, none⟩

/-- A validated report that is over 31 years old. -/
def c10Report : Report :=
  ⟨"crash", JVal.obj [("reason", JVal.str "oom")], "https://x", 1000000000000, "",
   none, "report-to"⟩

/-! ### Helper lemmas -/

/-- A type with a variant schema is one of the eight enumerated types. -/
theorem variantSchema_mem {t : String} {sch : ObjSchema}
    (h : variantSchema t = some sch) : t ∈ reportTypes := by
  unfold variantSchema at h
  split_ifs at h <;> simp_all [reportTypes]

/-- A type outside the enumeration selects no variant schema. -/
theorem variantSchema_eq_none {t : String} (h : t ∉ reportTypes) :
    variantSchema t = none := by
  cases hv : variantSchema t with
  | none => rfl
  | some sch => exact absurd (variantSchema_mem hv) h

/-- Inversion of a successful discriminated-union parse: the type selects a
variant schema that validated the `body` field. -/
theorem parseUnionSide_some {raw : JVal} {t : String} {b : JVal}
    (h : parseUnionSide raw = some (t, b)) :
    ∃ sch, variantSchema t = some sch ∧
      parseObjSchema sch (jvalGet raw "body") = some b ∧
      jvalGet raw "type" = JVal.str t := by
  unfold parseUnionSide at h
  split at h
  next kvs =>
    split at h
    next t2 heq =>
      split at h
      next sch hsch =>
        rw [Option.map_eq_some'] at h
        obtain ⟨b2, hb2, hpair⟩ := h
        cases hpair
        exact ⟨sch, hsch, by simpa [jvalGet] using hb2, by simp [jvalGet, heq]⟩
      next => exact Option.noConfusion h
    next => exact Option.noConfusion h
  next => exact Option.noConfusion h

/-- The discriminated union rejects any input whose `type` is not one of
the enumerated literals. -/
theorem parseUnionSide_none_of_unknown {raw : JVal}
    (h : ∀ t, t ∈ reportTypes → jvalGet raw "type" ≠ JVal.str t) :
    parseUnionSide raw = none := by
  unfold parseUnionSide
  split
  next kvs =>
    split
    next t2 heq =>
      have hnot : t2 ∉ reportTypes := fun hmem => h t2 hmem (by simp [jvalGet, heq])
      rw [variantSchema_eq_none hnot]
    next => rfl
  next => rfl

/-- Lookup skips a head entry with a different key. -/
theorem lookupField_cons_ne {p : String × JVal} {t : List (String × JVal)} {k : String}
    (h : p.1 ≠ k) : lookupField (p :: t) k = lookupField t k := by
  simp [lookupField, List.find?, h]

/-- Lookup passes over a prefix none of whose keys match. -/
theorem lookupField_append_right {a : List (String × JVal)} (b : List (String × JVal))
    (k : String) (h : ∀ p ∈ a, p.1 ≠ k) :
    lookupField (a ++ b) k = lookupField b k := by
  induction a with
  | nil => rfl
  | cons p t ih =>
    rw [List.cons_append, lookupField_cons_ne (h p (by simp))]
    exact ih (fun q hq => h q (by simp [hq]))

/-- Every key of the declared part of a parse output is a declared field
name. -/
theorem parseFields_keys {fs : List FieldSpec} {kvs : List (String × JVal)}
    {shape : List (String × JVal)} (h : parseFields fs kvs = some shape) :
    ∀ p ∈ shape, p.1 ∈ fs.map (·.name) := by
  induction fs generalizing shape with
  | nil =>
    unfold parseFields at h
    cases h
    simp
  | cons f ft ih =>
    unfold parseFields at h
    split at h
    · next rest hspec hrest =>
      cases h
      intro p hp
      simp only [List.map_cons]
      exact List.mem_cons_of_mem _ (ih hrest p hp)
    · next out rest hspec hrest =>
      cases h
      intro p hp
      simp only [List.map_cons]
      rcases List.mem_cons.mp hp with rfl | hp2
      · exact List.mem_cons_self _ _
      · exact List.mem_cons_of_mem _ (ih hrest p hp2)
    · exact Option.noConfusion h

/-- Lookup misses entirely when every key of the list lies in a set the
looked-up key avoids. -/
theorem lookupField_eq_undef {l : List (String × JVal)} {names : List String} {k : String}
    (hall : ∀ p ∈ l, p.1 ∈ names) (h : k ∉ names) : lookupField l k = JVal.undef := by
  induction l with
  | nil => rfl
  | cons p t ih =>
    have hne : p.1 ≠ k := fun he => h (he ▸ hall p (by simp))
    rw [lookupField_cons_ne hne]
    exact ih (fun q hq => hall q (by simp [hq]))

/-- Filtering out the declared names does not change lookups of undeclared
keys. -/
theorem lookupField_extraFields {names : List String} {kvs : List (String × JVal)}
    {k : String} (h : k ∉ names) :
    lookupField (extraFields names kvs) k = lookupField kvs k := by
  induction kvs with
  | nil => rfl
  | cons p t ih =>
    unfold extraFields
    by_cases hp : p.1 ∈ names
    · rw [List.filter_cons_of_neg (by simp [hp])]
      have hne : p.1 ≠ k := fun he => h (he ▸ hp)
      rw [lookupField_cons_ne hne]
      exact ih
    · rw [List.filter_cons_of_pos (by simp [hp])]
      by_cases hk : p.1 = k
      · simp [lookupField, List.find?, hk]
      · rw [lookupField_cons_ne hk, lookupField_cons_ne hk]
        exact ih

/-- Appending one entry with a fresh key does not change other lookups. -/
theorem lookupField_append_single_ne {kvs : List (String × JVal)} {k key : String}
    {v : JVal} (h : key ≠ k) :
    lookupField (kvs ++ [(key, v)]) k = lookupField kvs k := by
  induction kvs with
  | nil => simp [lookupField, List.find?, h]
  | cons p t ih =>
    by_cases hp : p.1 = k
    · simp [lookupField, List.find?, hp]
    · rw [List.cons_append, lookupField_cons_ne hp, lookupField_cons_ne hp]
      exact ih

/-- Declared-field parsing only reads the lookups of the declared names. -/
theorem parseFields_congr {fs : List FieldSpec} {kvs1 kvs2 : List (String × JVal)}
    (h : ∀ f ∈ fs, lookupField kvs1 f.name = lookupField kvs2 f.name) :
    parseFields fs kvs1 = parseFields fs kvs2 := by
  induction fs with
  | nil => rfl
  | cons f t ih =>
    unfold parseFields
    rw [h f (by simp), ih (fun g hg => h g (by simp [hg]))]

/-- Inversion of a successful object-schema parse. -/
theorem parseObjSchema_some {sch : ObjSchema} {v out : JVal}
    (h : parseObjSchema sch v = some out) :
    ∃ kvs shape, v = JVal.obj kvs ∧ parseFields sch.fields kvs = some shape ∧
      out = JVal.obj (shape ++
        (if sch.passthrough then extraFields (sch.fields.map (·.name)) kvs else [])) := by
  unfold parseObjSchema at h
  split at h
  · next kvs =>
    rw [Option.map_eq_some'] at h
    obtain ⟨shape, hs, hout⟩ := h
    exact ⟨kvs, shape, rfl, hs, hout.symm⟩
  · exact Option.noConfusion h

/-- The five passthrough types select passthrough schemas. -/
theorem passthrough_of_mem {t : String} {sch : ObjSchema}
    (hm : t ∈ passthroughTypes) (hs : variantSchema t = some sch) :
    sch.passthrough = true := by
  fin_cases hm <;>
    (simp [variantSchema, cspBodySchema, coopBodySchema, coepBodySchema,
       nelBodySchema, permissionsBodySchema] at hs; subst hs; rfl)

/-- The three stripped types select non-passthrough schemas. -/
theorem stripped_of_mem {t : String} {sch : ObjSchema}
    (hm : t ∈ strippedTypes) (hs : variantSchema t = some sch) :
    sch.passthrough = false := by
  fin_cases hm <;>
    (simp [variantSchema, deprecationBodySchema, crashBodySchema,
       interventionBodySchema] at hs; subst hs; rfl)

/-- Characterization of the extension-prefix test. -/
theorem extensionSourceFile_iff (v : JVal) :
    extensionSourceFile v = true ↔
      ∃ sf, v = JVal.str sf ∧
        (jsStartsWith sf "chrome-extension" = true ∨ jsStartsWith sf "moz-extension" = true ∨
         jsStartsWith sf "safari-web-extension" = true) := by
  cases v <;> simp [extensionSourceFile, or_assoc]

/-- Characterization of the truthiness of `maxAge`. -/
theorem maxAgeTruthy_iff (o : Option Int) :
    maxAgeTruthy o = true ↔ ∃ m, o = some m ∧ m ≠ 0 := by
  cases o <;> simp [maxAgeTruthy]

/-- A left fold that appends per-element lists is the flat map. -/
theorem foldl_append_toList_eq_flatMap {α β : Type} (f : α → List β) :
    ∀ (l : List α) (init : List β),
      l.foldl (fun acc x => acc ++ f x) init = init ++ l.flatMap f := by
  intro l
  induction l with
  | nil => intro init; simp
  | cons a t ih => intro init; simp [ih, List.append_assoc]

/-- The per-header reporting directive is never empty. -/
theorem reporterSuffix_length_pos (header g u : String) :
    (reporterSuffix header g u).length ≠ 0 := by
  unfold reporterSuffix
  split_ifs
  · have h1 : (";report-uri " : String).length = 12 := rfl
    simp only [String.length_append]
    omega
  · have h1 : (";report-to=" : String).length = 11 := rfl
    simp only [String.length_append]
    omega
  · have h1 : (";report-to=\"" : String).length = 12 := rfl
    simp only [String.length_append]
    omega

/-- Appending the reporting directive never yields the empty string. -/
theorem append_reporterSuffix_ne_empty (v header g u : String) :
    v ++ reporterSuffix header g u ≠ "" := by
  intro h
  have h2 := congrArg String.length h
  rw [String.length_append, show ("" : String).length = 0 from rfl] at h2
  exact reporterSuffix_length_pos header g u (by omega)

/-- On a monitored header, `addReporterToHeader` refuses already-annotated
values and otherwise appends the per-header directive. -/
theorem addReporterToHeader_eq {header : String} (hmem : header ∈ monitoredHeaders)
    (v g u : String) :
    addReporterToHeader header v g u
      = if alreadyReported v then none else some (v ++ reporterSuffix header g u) := by
  fin_cases hmem <;>
    (unfold addReporterToHeader reporterSuffix
     by_cases har : alreadyReported v = true <;> simp [har, String.append_assoc])

/-- The net effect of the annotator's inner loop on one monitored value. -/
theorem applyReporter_eq {header : String} (hmem : header ∈ monitoredHeaders)
    (v g u : String) :
    applyReporter header v g u
      = if alreadyReported v then v else v ++ reporterSuffix header g u := by
  by_cases har : alreadyReported v = true
  · simp [applyReporter, addReporterToHeader_eq hmem, har]
  · simp [applyReporter, addReporterToHeader_eq hmem, har,
      append_reporterSuffix_ne_empty v header g u]

/-- One loop iteration rewrites exactly the processed header's value list. -/
theorem stepHeader_fst_apply_self (g u : String) (acc : HeaderMap × Bool) (h : String) :
    (stepHeader g u acc h).1 h = (acc.1 h).map (fun v => applyReporter h v g u) := by
  simp only [stepHeader]
  split_ifs with hv
  · rw [hv]
    rfl
  · simp [setHeader]

/-- One loop iteration leaves every other header untouched. -/
theorem stepHeader_fst_apply_other (g u : String) (acc : HeaderMap × Bool)
    (h k : String) (hne : k ≠ h) :
    (stepHeader g u acc h).1 k = acc.1 k := by
  simp only [stepHeader]
  split_ifs
  · rfl
  · simp [setHeader, hne]

/-- The loop leaves headers outside the processed name list untouched. -/
theorem foldl_stepHeader_not_mem (g u : String) :
    ∀ (names : List String) (k : String), k ∉ names →
      ∀ acc, ((names.foldl (stepHeader g u) acc).1) k = acc.1 k := by
  intro names
  induction names with
  | nil => intro k _ acc; rfl
  | cons n t ih =>
    intro k hk acc
    rw [List.foldl_cons, ih k (fun hmem => hk (List.mem_cons_of_mem _ hmem))]
    exact stepHeader_fst_apply_other g u acc n k (fun he => hk (he ▸ List.mem_cons_self n t))

/-- Over a duplicate-free name list, the loop rewrites each listed header's
values exactly once. -/
theorem foldl_stepHeader_mem (g u : String) :
    ∀ (names : List String), names.Nodup → ∀ k ∈ names,
      ∀ acc, ((names.foldl (stepHeader g u) acc).1) k
        = (acc.1 k).map (fun v => applyReporter k v g u) := by
  intro names
  induction names with
  | nil => intro _ k hk; exact absurd hk (List.not_mem_nil k)
  | cons n t ih =>
    intro hnd k hk acc
    rw [List.foldl_cons]
    rcases List.mem_cons.mp hk with rfl | hkt
    · rw [foldl_stepHeader_not_mem g u t k (List.nodup_cons.mp hnd).1]
      exact stepHeader_fst_apply_self g u acc k
    · rw [ih (List.nodup_cons.mp hnd).2 k hkt]
      rw [stepHeader_fst_apply_other g u acc n k
        (fun he => (List.nodup_cons.mp hnd).1 (he ▸ hkt))]

/-! ### The claims -/

/-- Claim C1: every Report the Normalizer produces has a body whose shape
matches its declared `type` tag — a successful `Report.safeParse` yields a
type among the eight enumerated values whose `body` validated against that
variant's schema, and any input whose `type` is outside the enumeration is
rejected with a validation failure. -/
theorem reportSafeParse_type_matches_body :
    (∀ raw r, reportSafeParse raw = some r →
      r.type ∈ reportTypes ∧
      ∃ sch, variantSchema r.type = some sch ∧
        parseObjSchema sch (jvalGet raw "body") = some r.body) ∧
    (∀ raw, (∀ t, t ∈ reportTypes → jvalGet raw "type" ≠ JVal.str t) →
      reportSafeParse raw = none) := by
  constructor
  · intro raw r h
    unfold reportSafeParse at h
    split at h
    · next t b c hU hC =>
        obtain ⟨sch, hsch, hbody, htype⟩ := parseUnionSide_some hU
        cases h
        exact ⟨variantSchema_mem hsch, sch, hsch, hbody⟩
    · exact Option.noConfusion h
  · intro raw h
    have hU := parseUnionSide_none_of_unknown h
    unfold reportSafeParse
    rw [hU]

/-- Witness for C1: a valid crash report parses and its body validated
against the crash schema; a report with an unknown type is rejected. -/
theorem reportSafeParse_type_matches_body_witness :
    (reportSafeParse c1Raw = some c1Report ∧
      c1Report.type ∈ reportTypes ∧
      ∃ sch, variantSchema c1Report.type = some sch ∧
        parseObjSchema sch (jvalGet c1Raw "body") = some c1Report.body) ∧
    ((∀ t, t ∈ reportTypes → jvalGet c1BadRaw "type" ≠ JVal.str t) ∧
      reportSafeParse c1BadRaw = none) :=
  ⟨⟨rfl, reportSafeParse_type_matches_body.1 c1Raw c1Report rfl⟩,
   ⟨fun t ht hcontra => by
      have h2 : JVal.str "future-report-type" = JVal.str t := hcontra
      injection h2 with h3
      subst h3
      exact absurd ht (by decide),
    reportSafeParse_type_matches_body.2 c1BadRaw (fun t ht hcontra => by
      have h2 : JVal.str "future-report-type" = JVal.str t := hcontra
      injection h2 with h3
      subst h3
      exact absurd ht (by decide))⟩⟩

/-- Claim C2: on a response without a `Reporting-Endpoints` header, for
every monitored header name, annotation is idempotent per value — a value
already containing `report-to` or `report-uri ` is left byte-identical,
while every sibling value without such a directive gets the per-header
reporting directive appended. -/
theorem annotate_idempotent_and_annotates_siblings (reportingUrl : String)
    (cfg : ReportingHeadersConfig) (res : HeaderMap) (h : String)
    (hmem : h ∈ monitoredHeaders) (hre : res "Reporting-Endpoints" = []) :
    setupReportingHeaders reportingUrl cfg res h
      = (res h).map (fun v => if alreadyReported v then v
          else v ++ reporterSuffix h (resolveGroup cfg) (resolveUrl reportingUrl cfg)) := by
  have hne : h ≠ "Reporting-Endpoints" := by
    intro he
    rw [he] at hmem
    exact absurd hmem (by decide)
  have hfold := foldl_stepHeader_mem (resolveGroup cfg) (resolveUrl reportingUrl cfg)
    monitoredHeaders (by decide) h hmem (res, false)
  have hfun : (fun v => applyReporter h v (resolveGroup cfg) (resolveUrl reportingUrl cfg))
      = (fun v => if alreadyReported v then v
          else v ++ reporterSuffix h (resolveGroup cfg) (resolveUrl reportingUrl cfg)) :=
    funext (fun v => applyReporter_eq hmem v _ _)
  simp only [setupReportingHeaders]
  rw [if_neg (by simp [hre])]
  cases hb : (monitoredHeaders.foldl
      (stepHeader (resolveGroup cfg) (resolveUrl reportingUrl cfg)) (res, false)).2
  · simp only [hb, Bool.false_eq_true, if_false]
    rw [hfold, hfun]
  · simp only [hb, if_true]
    unfold appendHeader setHeader
    rw [if_neg hne]
    rw [hfold, hfun]

/-- Witness for C2: a CSP header carrying one already-annotated value and
one plain sibling value. -/
theorem annotate_idempotent_and_annotates_siblings_witness :
    ("Content-Security-Policy" ∈ monitoredHeaders) ∧
    (c2Res "Reporting-Endpoints" = []) ∧
    (setupReportingHeaders "/endpoint" c2Cfg c2Res "Content-Security-Policy"
      = (c2Res "Content-Security-Policy").map (fun v => if alreadyReported v then v
          else v ++ reporterSuffix "Content-Security-Policy" (resolveGroup c2Cfg)
            (resolveUrl "/endpoint" c2Cfg))) :=
  ⟨by decide, rfl,
   annotate_idempotent_and_annotates_siblings "/endpoint" c2Cfg c2Res
     "Content-Security-Policy" (by decide) rfl⟩

/-- Counterexample for C3: a valid deprecation report with an unknown extra
body field parses successfully, but the extra field is absent from the
normalized body handed to the callback — it is stripped, not preserved. -/
theorem deprecation_extra_field_stripped :
    jvalGet (jvalGet c3Raw "body") "extra" = JVal.str "dropped" ∧
    reportSafeParse c3Raw = some c3Report ∧
    jvalGet c3Report.body "extra" = JVal.undef :=
  ⟨rfl, rfl, rfl⟩

/-- Claim C3 (amended): unknown extra body fields never cause rejection;
for the five passthrough variants (csp-violation, coop, coep,
network-error, permissions-policy-violation) they are preserved in the
normalized body, but for deprecation, crash and intervention bodies they
are silently stripped. -/
theorem report_body_extra_fields :
    (∀ raw r key, reportSafeParse raw = some r →
      key ∉ schemaFieldNames r.type →
      ((r.type ∈ passthroughTypes →
          jvalGet r.body key = jvalGet (jvalGet raw "body") key) ∧
       (r.type ∈ strippedTypes → jvalGet r.body key = JVal.undef))) ∧
    (∀ t sch kvs key v, variantSchema t = some sch →
      key ∉ sch.fields.map (·.name) →
      (parseObjSchema sch (JVal.obj kvs)).isSome = true →
      (parseObjSchema sch (JVal.obj (kvs ++ [(key, v)]))).isSome = true) := by
  constructor
  · intro raw r key h hkey
    unfold reportSafeParse at h
    split at h
    · next t b c hU hC =>
      cases h
      obtain ⟨sch, hsch, hbody, htype⟩ := parseUnionSide_some hU
      obtain ⟨kvs, shape, hv, hshape, hout⟩ := parseObjSchema_some hbody
      have hnames : key ∉ sch.fields.map (·.name) := by
        simpa [schemaFieldNames, hsch] using hkey
      have hshapekeys : ∀ p ∈ shape, p.1 ≠ key :=
        fun p hp he => hnames (he ▸ parseFields_keys hshape p hp)
      constructor
      · intro hmem
        have hpt : sch.passthrough = true := passthrough_of_mem hmem hsch
        rw [hout, hv]
        show lookupField (shape ++ _) key = jvalGet (JVal.obj kvs) key
        rw [lookupField_append_right _ key hshapekeys, hpt]
        simpa [jvalGet] using lookupField_extraFields hnames
      · intro hmem
        have hpt : sch.passthrough = false := stripped_of_mem hmem hsch
        rw [hout]
        show lookupField (shape ++ _) key = JVal.undef
        rw [lookupField_append_right _ key hshapekeys, hpt]
        rfl
    · exact Option.noConfusion h
  · intro t sch kvs key v hsch hkey hsome
    have hcong : parseFields sch.fields (kvs ++ [(key, v)]) = parseFields sch.fields kvs := by
      apply parseFields_congr
      intro f hf
      exact lookupField_append_single_ne
        (fun he => hkey (he ▸ List.mem_map_of_mem (·.name) hf))
    have hred : ∀ kvs2, parseObjSchema sch (JVal.obj kvs2)
        = (parseFields sch.fields kvs2).map (fun shape => JVal.obj (shape ++
            (if sch.passthrough then extraFields (sch.fields.map (·.name)) kvs2 else []))) :=
      fun _ => rfl
    rw [hred] at hsome
    rw [hred, hcong]
    cases hpf : parseFields sch.fields kvs <;> simp_all

/-- Witness for C3 (amended): the stripped case on a deprecation report,
and extra-field tolerance of the deprecation body schema. -/
theorem report_body_extra_fields_witness :
    (reportSafeParse c3Raw = some c3Report ∧
      "extra" ∉ schemaFieldNames c3Report.type ∧
      c3Report.type ∈ strippedTypes ∧
      jvalGet c3Report.body "extra" = JVal.undef) ∧
    (variantSchema "deprecation" = some deprecationBodySchema ∧
      "extra" ∉ deprecationBodySchema.fields.map (·.name) ∧
      (parseObjSchema deprecationBodySchema (JVal.obj c3Kvs)).isSome = true ∧
      (parseObjSchema deprecationBodySchema
        (JVal.obj (c3Kvs ++ [("extra", JVal.str "x")]))).isSome = true) :=
  ⟨⟨rfl, by decide, by decide,
    (report_body_extra_fields.1 c3Raw c3Report "extra" rfl (by decide)).2 (by decide)⟩,
   ⟨rfl, by decide, rfl,
    report_body_extra_fields.2 "deprecation" deprecationBodySchema c3Kvs "extra"
      (JVal.str "x") rfl (by decide) rfl⟩⟩

/-- Claim C4: a POST of content type `application/reports+json` whose body
is an array yields a 200 response whose callback invocations are exactly
the per-element results, independently and in array order; a malformed
element contributes at most an `onValidationError` invocation and does not
disturb the processing of its siblings. -/
theorem reports_array_processed_in_order (cfg : ReportingEndpointConfig) (req : Request)
    (hm : req.method = "POST") (hct : req.contentType = some "application/reports+json")
    (elems : List JVal) (hb : req.body = JVal.arr elems) :
    createReportingEndpoint cfg req =
      ⟨200, corsHeaders cfg req,
        elems.flatMap (fun raw =>
          (handleReport (reportSafeParse (bufferedCandidate raw req.queryVersion))
            raw cfg).toList)⟩ ∧
    (∀ raw, reportSafeParse (bufferedCandidate raw req.queryVersion) = none →
      (handleReport (reportSafeParse (bufferedCandidate raw req.queryVersion)) raw cfg).toList
        = if cfg.hasOnValidationError then [Event.validationError raw] else []) := by
  constructor
  · simp only [createReportingEndpoint]
    rw [if_neg (by simp [hm])]
    rw [if_neg (by simp [hm])]
    rw [if_neg (by simp [hct])]
    rw [if_neg (by simp [hct])]
    rw [hb]
    rw [if_neg (by simp [jvalGet, jsTypeofObject])]
    show HandlerResult.mk 200 (corsHeaders cfg req)
        (elems.foldl (fun acc raw =>
          acc ++ (handleReport (reportSafeParse (bufferedCandidate raw req.queryVersion))
            raw cfg).toList) []) = _
    rw [foldl_append_toList_eq_flatMap]
    simp
  · intro raw hnone
    rw [hnone]
    unfold handleReport
    split_ifs <;> simp

/-- Witness for C4: an array holding a malformed element followed by a
valid one produces the validation-error invocation and then the report
invocation, in order. -/
theorem reports_array_processed_in_order_witness :
    (createReportingEndpoint c4Config c4Request =
      ⟨200, corsHeaders c4Config c4Request,
        [c4Bad, c4Good].flatMap (fun raw =>
          (handleReport (reportSafeParse (bufferedCandidate raw none))
            raw c4Config).toList)⟩) ∧
    (createReportingEndpoint c4Config c4Request).events
      = [Event.validationError c4Bad, Event.report c4GoodReport] :=
  ⟨(reports_array_processed_in_order c4Config c4Request rfl rfl [c4Bad, c4Good] rfl).1,
   by rfl⟩

/-- Counterexample for C5: a validated report that is not a CSP violation
(type `permissions-policy-violation`) is nevertheless dropped by the
extension criterion, because `filterReport` never checks the report's
`type`. -/
theorem filter_drops_non_csp_extension_report :
    (reportSafeParse c5Raw).isSome = true ∧
    (reportSafeParse c5Raw).map (fun r => r.type) = some "permissions-policy-violation" ∧
    (reportSafeParse c5Raw).map (fun r => filterReport r c5Config) = some false :=
  ⟨rfl, rfl, rfl⟩

/-- Claim C5 (amended): the filter drops a report exactly when either
`ignoreBrowserExtensions` is configured and the report's body — of any
type — has a string `sourceFile` starting with `chrome-extension`,
`moz-extension` or `safari-web-extension`, or a truthy `maxAge` is exceeded;
in particular without `ignoreBrowserExtensions` no report is dropped on the
extension criterion. -/
theorem filterReport_drop_characterization (r : Report) (cfg : ReportingEndpointConfig) :
    filterReport r cfg = false ↔
      ((cfg.ignoreBrowserExtensions = true ∧
        ∃ sf, jvalGet r.body "sourceFile" = JVal.str sf ∧
          (jsStartsWith sf "chrome-extension" = true ∨ jsStartsWith sf "moz-extension" = true ∨
           jsStartsWith sf "safari-web-extension" = true)) ∨
       (∃ m, cfg.maxAge = some m ∧ m ≠ 0 ∧ r.age > m * 1000)) := by
  constructor
  · intro hf
    by_cases h1 : cfg.ignoreBrowserExtensions = true ∧
        extensionSourceFile (jvalGet r.body "sourceFile") = true
    · exact Or.inl ⟨h1.1, (extensionSourceFile_iff _).mp h1.2⟩
    · right
      unfold filterReport at hf
      rw [if_neg h1] at hf
      split_ifs at hf with h2
      obtain ⟨hm, hage⟩ := h2
      obtain ⟨m, ho, hm0⟩ := (maxAgeTruthy_iff _).mp hm
      refine ⟨m, ho, hm0, ?_⟩
      rw [ho] at hage
      simpa using hage
  · intro h
    unfold filterReport
    rcases h with ⟨hi, sf, hsf, hpre⟩ | ⟨m, ho, hm0, hage⟩
    · rw [if_pos ⟨hi, (extensionSourceFile_iff _).mpr ⟨sf, hsf, hpre⟩⟩]
    · split_ifs with h1 h2
      · rfl
      · rfl
      · exact absurd ⟨(maxAgeTruthy_iff _).mpr ⟨m, ho, hm0⟩,
          by rw [ho]; simpa using hage⟩ h2

/-- Claim C6: with a positive configured `maxAge` the age boundary is
inclusive — a report aged exactly `maxAge * 1000` milliseconds passes
`filterReport`, and a report one millisecond older is dropped. -/
theorem filter_maxAge_boundary_inclusive (cfg : ReportingEndpointConfig) (m : Int)
    (hm : 0 < m) (hA : cfg.maxAge = some m) (r : Report) :
    (r.age = m * 1000 → cfg.ignoreBrowserExtensions = false → filterReport r cfg = true) ∧
    (r.age = m * 1000 + 1 → filterReport r cfg = false) := by
  constructor
  · intro hage hext
    unfold filterReport
    rw [if_neg (by simp [hext]), if_neg (by simp [hA, hage])]
  · intro hage
    unfold filterReport
    split_ifs with h1 h2
    · rfl
    · rfl
    · exact absurd ⟨by simp [hA, maxAgeTruthy]; omega,
        by rw [hA, hage]; simp only [Option.getD_some]; omega⟩ h2

/-- Witness for C6: with `maxAge` of 30 seconds, a report aged 30000
milliseconds is kept and one aged 30001 is dropped. -/
theorem filter_maxAge_boundary_inclusive_witness :
    filterReport c6ReportKept c6Config = true ∧
    filterReport c6ReportDropped c6Config = false :=
  ⟨(filter_maxAge_boundary_inclusive c6Config 30 (by decide) rfl c6ReportKept).1 rfl rfl,
   (filter_maxAge_boundary_inclusive c6Config 30 (by decide) rfl c6ReportDropped).2 rfl⟩

/-- Claim C7: annotating a response whose Content-Security-Policy value is
`script-src 'self'` with group `reporter` and reporting URL `/ep` rewrites
that value to exactly
`script-src 'self';report-uri /ep?src=report-uri;report-to reporter`. -/
theorem csp_annotation_end_to_end :
    setupReportingHeaders "/ep" ⟨some "reporter", false, none⟩
      (fun k => if k = "Content-Security-Policy" then ["script-src 'self'"] else [])
      "Content-Security-Policy"
    = ["script-src 'self';report-uri /ep?src=report-uri;report-to reporter"] := by
  decide

/-- Claim C8: on a POST of content type `application/csp-report`, a body
without a truthy nested `csp-report` object yields 400 with no callback;
otherwise the response is 200 and at most one callback fires, driven by the
single candidate built from the legacy body — whose `age` is 0, whose
`report_format` is `report-uri`, whose body maps the hyphenated legacy
fields to canonical names preferring `effective-directive` over
`violated-directive`, and whose `disposition` falls back to the request's
`disposition` query parameter. -/
theorem csp_legacy_branch (cfg : ReportingEndpointConfig) (req : Request)
    (hm : req.method = "POST") (hct : req.contentType = some "application/csp-report") :
    (jsTruthy (jvalGet req.body "csp-report") = false →
      createReportingEndpoint cfg req = ⟨400, corsHeaders cfg req, []⟩) ∧
    (jsTruthy (jvalGet req.body "csp-report") = true →
      createReportingEndpoint cfg req = ⟨200, corsHeaders cfg req,
        (handleReport (reportSafeParse (cspCandidate (jvalGet req.body "csp-report")
          req.userAgent req.queryVersion req.queryDisposition)) req.body cfg).toList⟩) ∧
    (∀ b ua v qd,
      jvalGet (cspCandidate b ua v qd) "age" = JVal.num 0 ∧
      jvalGet (cspCandidate b ua v qd) "report_format" = JVal.str "report-uri" ∧
      jvalGet (cspCandidate b ua v qd) "type" = JVal.str "csp-violation" ∧
      jvalGet (cspCandidate b ua v qd) "url" = jvalGet b "document-uri" ∧
      jvalGet (jvalGet (cspCandidate b ua v qd) "body") "blockedURL"
        = jvalGet b "blocked-uri" ∧
      jvalGet (jvalGet (cspCandidate b ua v qd) "body") "effectiveDirective"
        = jsOr (jvalGet b "effective-directive") (jvalGet b "violated-directive") ∧
      jvalGet (jvalGet (cspCandidate b ua v qd) "body") "disposition"
        = jsOr (jvalGet b "disposition") (jOptStr qd)) := by
  refine ⟨?_, ?_, fun b ua v qd => ⟨rfl, rfl, rfl, rfl, rfl, rfl, rfl⟩⟩
  · intro hfalse
    simp only [createReportingEndpoint]
    rw [if_neg (by simp [hm])]
    rw [if_neg (by simp [hm])]
    rw [if_pos hct]
    rw [if_pos (by simp [hfalse])]
  · intro htrue
    simp only [createReportingEndpoint]
    rw [if_neg (by simp [hm])]
    rw [if_neg (by simp [hm])]
    rw [if_pos hct]
    rw [if_neg (by simp [htrue])]

/-- Witness for C8: a legacy POST without the nested object gets 400 and no
callback; one with `document-uri` and `blocked-uri` flows through the
single candidate, whose `age` field is 0. -/
theorem csp_legacy_branch_witness :
    (jsTruthy (jvalGet c8ReqNoBody.body "csp-report") = false) ∧
    (createReportingEndpoint c8Config c8ReqNoBody
      = ⟨400, corsHeaders c8Config c8ReqNoBody, []⟩) ∧
    (jsTruthy (jvalGet c8ReqOk.body "csp-report") = true) ∧
    (createReportingEndpoint c8Config c8ReqOk
      = ⟨200, corsHeaders c8Config c8ReqOk,
          (handleReport (reportSafeParse (cspCandidate (jvalGet c8ReqOk.body "csp-report")
            c8ReqOk.userAgent c8ReqOk.queryVersion c8ReqOk.queryDisposition))
            c8ReqOk.body c8Config).toList⟩) ∧
    (jvalGet (cspCandidate (jvalGet c8ReqOk.body "csp-report") none none none) "age"
      = JVal.num 0) :=
  ⟨rfl,
   (csp_legacy_branch c8Config c8ReqNoBody rfl rfl).1 rfl,
   rfl,
   (csp_legacy_branch c8Config c8ReqOk rfl rfl).2.1 rfl,
   ((csp_legacy_branch c8Config c8ReqOk rfl rfl).2.2
     (jvalGet c8ReqOk.body "csp-report") none none none).1⟩

/-- Claim C9: a request whose method is neither POST nor OPTIONS is
answered 405 with an `Allow: POST, OPTIONS` header and no callback
invocation. -/
theorem non_post_options_rejected_405 (cfg : ReportingEndpointConfig) (req : Request)
    (hp : req.method ≠ "POST") (ho : req.method ≠ "OPTIONS") :
    createReportingEndpoint cfg req = ⟨405, [("Allow", "POST, OPTIONS")], []⟩ := by
  unfold createReportingEndpoint
  rw [if_pos ⟨hp, ho⟩]

/-- Witness for C9: a GET request. -/
theorem non_post_options_rejected_405_witness :
    createReportingEndpoint c9Config c9Request = ⟨405, [("Allow", "POST, OPTIONS")], []⟩ :=
  non_post_options_rejected_405 c9Config c9Request (by decide) (by decide)

/-- Claim C10: configuring `maxAge` as 0 disables age filtering entirely —
the truthiness check treats 0 like an absent `maxAge`, so a report of any
age passes the filter and a successfully parsed report reaches the
`onReport` callback. -/
theorem maxAge_zero_disables_age_filter (cfg : ReportingEndpointConfig)
    (h0 : cfg.maxAge = some 0) (hext : cfg.ignoreBrowserExtensions = false)
    (r : Report) (raw : JVal) :
    filterReport r cfg = true ∧
      handleReport (some r) raw cfg = some (Event.report r) := by
  have hf : filterReport r cfg = true := by
    unfold filterReport
    rw [if_neg (by simp [hext]), if_neg (by simp [h0, maxAgeTruthy])]
  exact ⟨hf, by simp [handleReport, hf]⟩

/-- Witness for C10: with `maxAge` 0, a crash report over 31 years old is
kept and delivered. -/
theorem maxAge_zero_disables_age_filter_witness :
    filterReport c10Report c10Config = true ∧
      handleReport (some c10Report) JVal.null c10Config = some (Event.report c10Report) :=
  maxAge_zero_disables_age_filter c10Config rfl rfl c10Report JVal.null
